import Mathlib

/-!
Shallow embedding of the CodeGame Go client library (package `cg`,
repository code-game-project/go-client), covering the socket runtime:
the message model, the callback registry (`On`, `Once`, `RemoveCallback`,
`triggerEventListeners`), the receive path (`receiveEvent`,
`startListenLoop`, `RunEventLoop`, `Connection.Listen`), the
request/response correlator (`sendEventAndWaitForResponse`) and the
session helpers (`Join`, `Connect`, `RestoreSession`, `Leave`,
`ResolveUsername`).

Modelling conventions:
* JSON (un)marshalling is injected as an abstract function
  `unm : String → Option EventWrapper` (the Go code delegates to
  `encoding/json` in exactly this success-or-failure shape); the
  empty-name check that `receiveEvent` performs on top of the decoder is
  explicit here, as in the source.
* Go callbacks are arbitrary closures; the claims only exercise plain
  callbacks and the self-removing wrapper installed by `Once`, so
  listeners are defunctionalised into those two constructors, carrying an
  opaque action token.  A dispatch produces the trace of invoked
  (callback id, action) pairs.
* Go map iteration order is unspecified; buckets are association lists
  iterated in list order (one refinement of the unspecified order).  A
  map entry deleted during iteration is not produced later by the Go
  runtime; dispatch therefore re-checks membership of each snapshot entry
  against the current registry before invoking it.
* The websocket transport is a list of read results: either a frame
  (text or binary with a raw payload) or a read error, the latter split
  into a clean close (`CloseNormalClosure` / `CloseNoStatusReceived` /
  `CloseGoingAway`, the codes `startListenLoop` and `Listen` test with
  `websocket.IsCloseError`) and any other transport error.
-/

namespace CG

/-- Event names are plain strings (Go: `type EventName string`). -/
abbrev EventName := String

/-- Event envelope (Go: `type Event struct { Name EventName; Data json.RawMessage }`).
The payload is kept as the raw string the wire carried. -/
structure Event where
  name : EventName
  data : String
deriving DecidableEq, Repr

/-- Wrapper adding the sending identity (Go: `type EventWrapper struct { Origin string; Event Event }`). -/
structure EventWrapper where
  origin : String
  event : Event
deriving DecidableEq, Repr

/-- Reserved error event name (Go: `const ErrorEvent = "error"`, identical in
every generation of the event catalogue). -/
def ErrorEvent : EventName := "error"

/-- Name of the join request event sent by `Socket.Join`. -/
def JoinEvent : EventName := "join_game"

/-- Name of the join acknowledgment event awaited by `Socket.Join`. -/
def JoinedEvent : EventName := "joined_game"

/-- Name of the connect request event sent by `Socket.Connect`. -/
def ConnectEvent : EventName := "connect"

/-- Name of the connect acknowledgment event awaited by `Socket.Connect`. -/
def ConnectedEvent : EventName := "connected"

/-- Name of the leave notification sent by `Socket.Leave`. -/
def LeaveEvent : EventName := "leave_game"

/-- Origin sentinel used by `Connection.error` for self-generated events
(Go: `const EventOriginSelf = "self"`). -/
def EventOriginSelf : String := "self"

/-- Websocket frame kinds relevant to `receiveEvent`: `websocket.TextMessage`
versus everything else (binary, etc.). -/
inductive FrameType where
  | text
  | binary
deriving DecidableEq, Repr

/-- Read errors surfaced by `wsConn.ReadMessage`: a close error carrying one
of the three clean-close codes, or any other transport error. -/
inductive ReadError where
  | cleanClose
  | other (e : String)
deriving DecidableEq, Repr

/-- One step of input from the transport: a delivered frame or a read error. -/
inductive ReadResult where
  | frame (type : FrameType) (msg : String)
  | err (e : ReadError)
deriving DecidableEq, Repr

/-- Errors `receiveEvent` can return: the `ReadMessage` error propagated
as-is, `ErrInvalidMessageType`, or `ErrDecodeFailed`. -/
inductive RecvErr where
  | read (e : ReadError)
  | invalidMessageType
  | decodeFailed
deriving DecidableEq, Repr

/-- Embedding of `Socket.receiveEvent` (socket.go:415-434): read one message;
propagate read errors as-is; reject non-text frames with
`ErrInvalidMessageType`; reject undecodable payloads and empty event names
with `ErrDecodeFailed`. -/
def receiveEvent (unm : String → Option EventWrapper) : ReadResult → Except RecvErr EventWrapper
  | .err e => .error (.read e)
  | .frame t msg =>
    if t ≠ FrameType.text then .error .invalidMessageType
    else
      match unm msg with
      | none => .error .decodeFailed
      | some w => if w.event.name = "" then .error .decodeFailed else .ok w

/-- Callback handles (Go: `type CallbackId uuid.UUID`; only freshness and
equality of handles matter, so they are numbered). -/
abbrev CallbackId := Nat

/-- Defunctionalised callbacks: a plain callback registered by `On`, or the
self-removing wrapper installed by `Once` (which invokes the user callback
and then calls `RemoveCallback` on its own id).  `A` is the type of opaque
user-action tokens. -/
inductive Listener (A : Type) where
  | plain (act : A)
  | once (act : A)
deriving DecidableEq, Repr

/-- One name bucket of the registry (Go: `map[CallbackId]OnEventCallback`). -/
abbrev Bucket (A : Type) := List (CallbackId × Listener A)

/-- Listener registry (Go: `map[EventName]map[CallbackId]OnEventCallback`),
as an association list of buckets. -/
abbrev Registry (A : Type) := List (EventName × Bucket A)

/-- Trace of callback invocations produced by dispatching. -/
abbrev Trace (A : Type) := List (CallbackId × A)

/-- Association-list lookup (the map read `m[k]` in Go, `none` for a missing key). -/
def alistLookup {κ β : Type} [DecidableEq κ] (k : κ) : List (κ × β) → Option β
  | [] => none
  | e :: rest => if e.1 = k then some e.2 else alistLookup k rest

/-- Association-list deletion (the Go built-in `delete(m, k)`). -/
def eraseKey {κ β : Type} [DecidableEq κ] (k : κ) : List (κ × β) → List (κ × β)
  | [] => []
  | e :: rest => if e.1 = k then eraseKey k rest else e :: eraseKey k rest

/-- Bucket of a name, the read `s.eventListeners[event.Name]` (empty if absent). -/
def getBucket (reg : Registry A) (n : EventName) : Bucket A :=
  (alistLookup n reg).getD []

/-- Whether a bucket currently holds an entry for a callback id. -/
def bucketHas (id : CallbackId) : Bucket A → Bool
  | [] => false
  | e :: rest => if e.1 = id then true else bucketHas id rest

/-- Embedding of `Socket.RemoveCallback` (socket.go:303-307): delete the id
from every name bucket. -/
def RemoveCallback (reg : Registry A) (id : CallbackId) : Registry A :=
  reg.map (fun b => (b.1, eraseKey id b.2))

/-- Shared insertion step of `On` and `Once`: create the bucket if absent,
then store the listener under the (fresh) id. -/
def insertListener (reg : Registry A) (n : EventName) (id : CallbackId) (l : Listener A) :
    Registry A :=
  match alistLookup n reg with
  | none => reg ++ [(n, [(id, l)])]
  | some _ => reg.map (fun b => if b.1 = n then (b.1, b.2 ++ [(id, l)]) else b)

/-- Embedding of `Socket.On` (socket.go:274-284); the fresh uuid is passed in
as `id`. -/
def On (reg : Registry A) (n : EventName) (id : CallbackId) (act : A) : Registry A :=
  insertListener reg n id (.plain act)

/-- Embedding of `Socket.Once` (socket.go:287-300): registers a wrapper that
invokes the callback and then removes its own id. -/
def Once (reg : Registry A) (n : EventName) (id : CallbackId) (act : A) : Registry A :=
  insertListener reg n id (.once act)

/-- Iteration of one dispatch over the snapshot of the matching bucket
(socket.go:436-442).  Entries deleted from the live registry during the
iteration are skipped (Go map semantics); a `once` wrapper removes its own
id right after its user callback runs. -/
def runBucket (n : EventName) (reg : Registry A) : Bucket A → Registry A × Trace A
  | [] => (reg, [])
  | (id, l) :: rest =>
    if bucketHas id (getBucket reg n) then
      match l with
      | .plain a =>
        let r := runBucket n reg rest
        (r.1, (id, a) :: r.2)
      | .once a =>
        let r := runBucket n (RemoveCallback reg id) rest
        (r.1, (id, a) :: r.2)
    else runBucket n reg rest

/-- Embedding of `Socket.triggerEventListeners` (socket.go:436-442): invoke
every currently registered callback for the event's name. -/
def triggerEventListeners (reg : Registry A) (e : Event) : Registry A × Trace A :=
  runBucket e.name reg (getBucket reg e.name)

/-- A dispatched message: origin paired with the event. -/
abbrev Msg := String × Event

/-- Sequential dispatch of a list of messages (each through
`triggerEventListeners`), accumulating the invocation trace. -/
def dispatchAll (reg : Registry A) : List Msg → Registry A × Trace A
  | [] => (reg, [])
  | m :: rest =>
    let r := triggerEventListeners reg m.2
    let r' := dispatchAll r.1 rest
    (r'.1, r.2 ++ r'.2)

/-- Number of entries for an id in a bucket. -/
def bucketCount (id : CallbackId) : Bucket A → Nat
  | [] => 0
  | e :: rest => (if e.1 = id then 1 else 0) + bucketCount id rest

/-- Number of entries for an id across the whole registry. -/
def regCount (id : CallbackId) : Registry A → Nat
  | [] => 0
  | b :: rest => bucketCount id b.2 + regCount id rest

/-- Number of invocations of an id recorded in a trace. -/
def traceCount (id : CallbackId) : Trace A → Nat
  | [] => 0
  | e :: rest => (if e.1 = id then 1 else 0) + traceCount id rest

/-- Terminal value recorded in `s.err` when the listen loop stops:
`ErrClosed` for a clean remote close, otherwise the `receiveEvent` error
stored as-is. -/
inductive StoredErr where
  | closed
  | recv (e : RecvErr)
deriving DecidableEq, Repr

/-- Mapping performed by `startListenLoop` when `receiveEvent` fails
(socket.go:400-405): a clean close (`websocket.IsCloseError` with
`CloseNormalClosure` / `CloseNoStatusReceived` / `CloseGoingAway`) is stored
as `ErrClosed`, every other error is stored unchanged. -/
def storedOfRecvErr : RecvErr → StoredErr
  | .read .cleanClose => .closed
  | e => .recv e

/-- Embedding of the background goroutine of `Socket.startListenLoop`
(socket.go:395-413): repeatedly call `receiveEvent`; on success push the
wrapper onto the event channel; on the first error record the terminal
error (mapped by `storedOfRecvErr`), stop and close the channel.  The
result is the list of wrappers delivered through the channel and the
recorded terminal error (`none` when the input was exhausted while the
loop was still running, i.e. the goroutine is still blocked reading). -/
def startListenLoop (unm : String → Option EventWrapper) :
    List ReadResult → List EventWrapper × Option StoredErr
  | [] => ([], none)
  | r :: rest =>
    match receiveEvent unm r with
    | .error e => ([], some (storedOfRecvErr e))
    | .ok w =>
      let t := startListenLoop unm rest
      (w :: t.1, t.2)

/-- Embedding of `Socket.RunEventLoop` (socket.go:243-255) in the terminated
regime: pull each wrapper delivered by the listen loop off the (now closed)
channel, trigger the registered listeners for it, and once the channel is
closed return `none` (Go `nil`) when `s.err == ErrClosed` and the recorded
error otherwise. -/
def RunEventLoop (reg : Registry A) : List EventWrapper → StoredErr →
    Registry A × Trace A × Option StoredErr
  | [], stored => (reg, [], if stored = StoredErr.closed then none else some stored)
  | w :: rest, stored =>
    let r := triggerEventListeners reg w.event
    let r' := RunEventLoop r.1 rest stored
    (r'.1, r.2 ++ r'.2.1, r'.2.2)

/-- Outcome of a `sendEventAndWaitForResponse` call. -/
inductive CorrOutcome where
  | ok (w : EventWrapper)
  | recvError (e : RecvErr)
  | serverError (reason : String)
  | noInput
deriving DecidableEq, Repr

/-- Result of the correlator: the request it wrote to the socket, the
registry after the dispatches it drove, the invocation trace, and the
outcome. -/
structure CorrRun (A : Type) where
  sent : List Event
  reg : Registry A
  trace : Trace A
  outcome : CorrOutcome
deriving Repr

/-- Waiting loop of `sendEventAndWaitForResponse` (socket.go:376-392):
receive an event (errors are returned to the caller as-is), trigger the
registered listeners for it, return it if its name is the expected
response, fail with the decoded reason if its name is the reserved error
name, otherwise continue.  `decReason` models `UnmarshalData` into
`ErrorEventData` followed by reading its message field (on a decode failure
Go leaves the field at its zero value, so the function is total).
`noInput` stands for exhausting the modelled input, where the Go call would
still be blocked in `ReadMessage`. -/
def waitLoop (unm : String → Option EventWrapper) (decReason : String → String)
    (reg : Registry A) (expected : EventName) :
    List ReadResult → Registry A × Trace A × CorrOutcome
  | [] => (reg, [], .noInput)
  | r :: rest =>
    match receiveEvent unm r with
    | .error e => (reg, [], .recvError e)
    | .ok w =>
      let d := triggerEventListeners reg w.event
      if w.event.name = expected then (d.1, d.2, .ok w)
      else if w.event.name = ErrorEvent then
        (d.1, d.2, .serverError (decReason w.event.data))
      else
        let t := waitLoop unm decReason d.1 expected rest
        (t.1, d.2 ++ t.2.1, t.2.2)

/-- Embedding of `Socket.sendEventAndWaitForResponse` (socket.go:373-393):
send the request (Go ignores the `Send` error), then run the waiting
loop. -/
def sendEventAndWaitForResponse (unm : String → Option EventWrapper)
    (decReason : String → String) (reg : Registry A) (event : EventName)
    (eventData : String) (expected : EventName) (stream : List ReadResult) :
    CorrRun A :=
  let t := waitLoop unm decReason reg expected stream
  ⟨[⟨event, eventData⟩], t.1, t.2.1, t.2.2⟩

/-- Return value of `Connection.Listen`: `none` while the loop is still
running (modelled input exhausted), `some none` for the `nil` return on a
clean close, `some (some e)` for returning the transport error `e`. -/
abbrev ListenOutcome := Option (Option String)

/-- Embedding of `Connection.Listen` together with its `receiveEvent`
(connection.go:112-150, first generation of the file): per-frame framing
errors first dispatch a self-generated error event (`Connection.error`,
whose reason string composed by `fmt.Sprintf` and marshalled into the data
field is modelled by `errReason`) and the loop then continues; a clean
close returns `nil`; any other read error is returned.  The `EventTarget`
argument the connection-generation callbacks additionally take plays no
role in any claim and is not recorded in the trace. -/
def ConnectionListen (unm : String → Option EventWrapper) (errReason : RecvErr → String)
    (reg : Registry A) : List ReadResult → Registry A × Trace A × ListenOutcome
  | [] => (reg, [], none)
  | r :: rest =>
    match receiveEvent unm r with
    | .error (.read .cleanClose) => (reg, [], some none)
    | .error (.read (.other e)) => (reg, [], some (some e))
    | .error e =>
      let d := triggerEventListeners reg ⟨ErrorEvent, errReason e⟩
      let t := ConnectionListen unm errReason d.1 rest
      (t.1, d.2 ++ t.2.1, t.2.2)
    | .ok w =>
      let d := triggerEventListeners reg w.event
      let t := ConnectionListen unm errReason d.1 rest
      (t.1, d.2 ++ t.2.1, t.2.2)

/-- In-memory session (session.go:13-19; the socket generation names the
first field `Name`, the session-store generation names it `GameURL` — both
hold the key passed as first argument to `newSession`). -/
structure Session where
  name : String
  username : String
  gameId : String
  playerId : String
  playerSecret : String
deriving DecidableEq, Repr

/-- Credentials as persisted on disk (the JSON-serialised fields of `Session`). -/
structure Creds where
  gameId : String
  playerId : String
  playerSecret : String
deriving DecidableEq, Repr

/-- Session store: the on-disk files keyed by (game name/url, username). -/
abbrev Store := List ((String × String) × Creds)

/-- Embedding of `newSession` (session.go:23-31). -/
def newSession (name username gameId playerId playerSecret : String) : Session :=
  ⟨name, username, gameId, playerId, playerSecret⟩

/-- Embedding of `loadSession` (session.go:33-46): read and decode the file
for the key, stamping the key fields onto the result; `none` models the
read/decode failure. -/
def loadSession (store : Store) (name username : String) : Option Session :=
  (alistLookup (name, username) store).map fun c =>
    ⟨name, username, c.gameId, c.playerId, c.playerSecret⟩

/-- Embedding of `Session.save` (session.go:48-64): refuse an empty key
(the error is ignored by every caller, so the store is simply unchanged),
otherwise write the credentials under the key. -/
def Session.save (s : Session) (store : Store) : Store :=
  if s.name = "" then store
  else ((s.name, s.username), ⟨s.gameId, s.playerId, s.playerSecret⟩) ::
    eraseKey (s.name, s.username) store

/-- Embedding of `Session.remove` (session.go:66-81): a no-op on an empty
key, otherwise delete the file for the key (callers ignore the returned
error, and removing the now-empty directory does not affect the store
contents). -/
def Session.remove (s : Session) (store : Store) : Store :=
  if s.name = "" then store
  else eraseKey (s.name, s.username) store

/-- State of a `Socket` (socket.go:28-40) as far as the claims observe it:
the game name fetched at construction, the listener registry, the username
cache, the in-memory session, the `running` flag, the persistent session
store the socket reads and writes, and whether the underlying websocket
connection is still open (only `Close` ever closes it). -/
structure SockState (A : Type) where
  name : String
  listeners : Registry A
  usernameCache : List (String × String)
  session : Session
  running : Bool
  store : Store
  transportOpen : Bool
deriving Repr

/-- Errors of the setup operations (`errors.New` values in Go). -/
inductive OpError where
  | alreadyJoined
  | emptyUsername
  | recv (e : RecvErr)
  | server (reason : String)
  | noInput
  | decodeData
  | loadFailed
deriving DecidableEq, Repr

/-- Result of a setup operation: the new socket state, the events written
to the socket, the callback invocations driven, and the returned error. -/
structure OpResult (A : Type) where
  st : SockState A
  sent : List Event
  trace : Trace A
  err : Option OpError
deriving Repr

/-- Payload of the join request, modelling `json.Marshal(JoinEventData{GameId, Username})`. -/
def joinData (gameId username : String) : String :=
  gameId ++ ";" ++ username

/-- Embedding of `Socket.Join` (socket.go:152-184): guard against an already
joined session and an empty username, send `join_game` through the
correlator awaiting `joined_game`, decode the secret out of the response
data (`decJoined` models `UnmarshalData` into `JoinedEventData`), store the
new session (the `save` error is only printed), and start the listen loop
(modelled by setting `running`; the spawned goroutine itself is
`startListenLoop`). -/
def Join (unm : String → Option EventWrapper) (decReason : String → String)
    (decJoined : String → Option String) (st : SockState A)
    (stream : List ReadResult) (gameId username : String) : OpResult A :=
  if st.session.name ≠ "" then ⟨st, [], [], some .alreadyJoined⟩
  else if username = "" then ⟨st, [], [], some .emptyUsername⟩
  else
    let run := sendEventAndWaitForResponse unm decReason st.listeners JoinEvent
      (joinData gameId username) JoinedEvent stream
    match run.outcome with
    | .ok res =>
      match decJoined res.event.data with
      | none => ⟨{ st with listeners := run.reg }, run.sent, run.trace, some .decodeData⟩
      | some secret =>
        let sess := newSession st.name username gameId res.origin secret
        ⟨{ st with
            listeners := run.reg
            session := sess
            store := sess.save st.store
            running := true },
          run.sent, run.trace, none⟩
    | .recvError e => ⟨{ st with listeners := run.reg }, run.sent, run.trace, some (.recv e)⟩
    | .serverError r => ⟨{ st with listeners := run.reg }, run.sent, run.trace, some (.server r)⟩
    | .noInput => ⟨{ st with listeners := run.reg }, run.sent, run.trace, some .noInput⟩

/-- Payload of the connect request, modelling `json.Marshal(ConnectEventData{...})`. -/
def connectData (gameId playerId playerSecret : String) : String :=
  gameId ++ ";" ++ playerId ++ ";" ++ playerSecret

/-- Embedding of `Socket.Connect` (socket.go:200-224): send `connect`
through the correlator awaiting `connected`, decode the username out of the
response data (`decConnected` models `UnmarshalData` into
`ConnectedEventData`), store the new session and start the listen loop. -/
def Connect (unm : String → Option EventWrapper) (decReason : String → String)
    (decConnected : String → Option String) (st : SockState A)
    (stream : List ReadResult) (gameId playerId playerSecret : String) : OpResult A :=
  let run := sendEventAndWaitForResponse unm decReason st.listeners ConnectEvent
    (connectData gameId playerId playerSecret) ConnectedEvent stream
  match run.outcome with
  | .ok res =>
    match decConnected res.event.data with
    | none => ⟨{ st with listeners := run.reg }, run.sent, run.trace, some .decodeData⟩
    | some username =>
      let sess := newSession st.name username gameId playerId playerSecret
      ⟨{ st with
          listeners := run.reg
          session := sess
          store := sess.save st.store
          running := true },
        run.sent, run.trace, none⟩
  | .recvError e => ⟨{ st with listeners := run.reg }, run.sent, run.trace, some (.recv e)⟩
  | .serverError r => ⟨{ st with listeners := run.reg }, run.sent, run.trace, some (.server r)⟩
  | .noInput => ⟨{ st with listeners := run.reg }, run.sent, run.trace, some .noInput⟩

/-- Embedding of `Socket.RestoreSession` (socket.go:187-197): load the
persisted session for this game and username, reconnect with its
credentials, and on a failed connect remove the persisted session before
returning the error unchanged. -/
def RestoreSession (unm : String → Option EventWrapper) (decReason : String → String)
    (decConnected : String → Option String) (st : SockState A)
    (stream : List ReadResult) (username : String) : OpResult A :=
  match loadSession st.store st.name username with
  | none => ⟨st, [], [], some .loadFailed⟩
  | some sess =>
    let r := Connect unm decReason decConnected st stream sess.gameId sess.playerId
      sess.playerSecret
    match r.err with
    | none => r
    | some e => ⟨{ r.st with store := sess.remove r.st.store }, r.sent, r.trace, some e⟩

/-- Embedding of `Socket.Leave` (socket.go:335-351): delete every bucket
whose event name is not a standard event, clear the username cache, remove
the persisted session (error ignored), clear `running`, and send
`leave_game` with the empty payload (`struct{}{}` marshals to `\x7b\x7d`).
The websocket connection itself is not touched. -/
def Leave (isStd : EventName → Bool) (st : SockState A) : SockState A × List Event :=
  ({ st with
      listeners := st.listeners.filter (fun b => isStd b.1),
      usernameCache := [],
      store := st.session.remove st.store,
      running := false },
    [⟨LeaveEvent, "\x7b\x7d"⟩])

/-- Embedding of `Socket.ResolveUsername` (socket.go:361-363): the map read
`s.usernameCache[playerId]`, whose zero value on a miss is the empty
string. -/
def ResolveUsername (cache : List (String × String)) (playerId : String) : String :=
  (alistLookup playerId cache).getD ("")

/-- Embedding of `Socket.cacheUser` (socket.go:444-446): map assignment. -/
def cacheUser (cache : List (String × String)) (playerId username : String) :
    List (String × String) :=
  (playerId, username) :: eraseKey playerId cache

/-- Embedding of `Socket.uncacheUser` (socket.go:448-450): map deletion. -/
def uncacheUser (cache : List (String × String)) (playerId : String) :
    List (String × String) :=
  eraseKey playerId cache

/-- Modelled from the spec: section 4.5's `usernameOf(participantId)` as the
specification words it — "return cached value if present; otherwise perform
a collaborator lookup, cache on success, return best-effort (empty string)
on failure".  The collaborator (`Socket.fetchUsername`, api.go:138-158,
which has no caller anywhere under the sources) is the injected `lookup`.
This reference definition exists only to be compared against the
implemented `ResolveUsername`. -/
def usernameOfSpec (cache : List (String × String)) (lookup : String → Option String)
    (playerId : String) : String × List (String × String) :=
  match alistLookup playerId cache with
  | some u => (u, cache)
  | none =>
    match lookup playerId with
    | some u => (u, cacheUser cache playerId u)
    | none => ("", cache)

/-- Wrappers a decoded stream yields before its first receive error (used to
characterise what `startListenLoop` pushes onto the event channel). -/
def oksBeforeErr : List (Except RecvErr EventWrapper) → List EventWrapper
  | [] => []
  | .ok w :: rest => w :: oksBeforeErr rest
  | .error _ :: _ => []

/-- First receive error of a decoded stream (used to characterise the
terminal error `startListenLoop` records). -/
def firstRecvError : List (Except RecvErr EventWrapper) → Option RecvErr
  | [] => none
  | .ok _ :: rest => firstRecvError rest
  | .error e :: _ => some e

/-- Immediate-termination behaviour of one transport item for
`Connection.Listen`: frames never terminate the loop, a clean close returns
`nil`, any other read error is returned as the error.  The loop outcome is
the first item for which this is not `none`. -/
def listenTerminal : ReadResult → Option (Option String)
  | .frame _ _ => none
  | .err .cleanClose => some none
  | .err (.other e) => some (some e)

/-! ### Helper lemmas: association lists and registry accounting -/

theorem alistLookup_eraseKey_self {κ β : Type} [DecidableEq κ] (k : κ) (l : List (κ × β)) :
    alistLookup k (eraseKey k l) = none := by
  induction l with
  | nil => rfl
  | cons e rest ih =>
    by_cases h : e.1 = k
    · simpa [eraseKey, h] using ih
    · simpa [eraseKey, h, alistLookup] using ih

theorem eraseKey_idem {κ β : Type} [DecidableEq κ] (k : κ) (l : List (κ × β)) :
    eraseKey k (eraseKey k l) = eraseKey k l := by
  induction l with
  | nil => rfl
  | cons e rest ih =>
    by_cases h : e.1 = k
    · simpa [eraseKey, h] using ih
    · simp [eraseKey, h, ih]

theorem traceCount_append (id : CallbackId) (t₁ t₂ : Trace A) :
    traceCount id (t₁ ++ t₂) = traceCount id t₁ + traceCount id t₂ := by
  induction t₁ with
  | nil => simp [traceCount]
  | cons e rest ih => simp [traceCount, ih, Nat.add_assoc]

theorem bucketCount_eraseKey_self (id : CallbackId) (b : Bucket A) :
    bucketCount id (eraseKey id b) = 0 := by
  induction b with
  | nil => rfl
  | cons e rest ih =>
    by_cases h : e.1 = id
    · simpa [eraseKey, h] using ih
    · simpa [eraseKey, h, bucketCount] using ih

theorem bucketCount_eraseKey_ne {id id' : CallbackId} (h : id ≠ id') (b : Bucket A) :
    bucketCount id (eraseKey id' b) = bucketCount id b := by
  induction b with
  | nil => rfl
  | cons e rest ih =>
    by_cases h' : e.1 = id'
    · have hne : ¬ (id' = id) := fun hh => h hh.symm
      simp [eraseKey, h', bucketCount, hne, ih]
    · simp [eraseKey, h', bucketCount, ih]

theorem regCount_RemoveCallback_self (id : CallbackId) (reg : Registry A) :
    regCount id (RemoveCallback reg id) = 0 := by
  induction reg with
  | nil => rfl
  | cons b rest ih =>
    simp only [RemoveCallback, List.map_cons, regCount, bucketCount_eraseKey_self] at ih ⊢
    simpa using ih

theorem regCount_RemoveCallback_ne {id id' : CallbackId} (h : id ≠ id') (reg : Registry A) :
    regCount id (RemoveCallback reg id') = regCount id reg := by
  induction reg with
  | nil => rfl
  | cons b rest ih =>
    simp only [RemoveCallback, List.map_cons, regCount, bucketCount_eraseKey_ne h] at ih ⊢
    omega

theorem getBucket_RemoveCallback (reg : Registry A) (id : CallbackId) (n : EventName) :
    getBucket (RemoveCallback reg id) n = eraseKey id (getBucket reg n) := by
  induction reg with
  | nil => rfl
  | cons b rest ih =>
    by_cases h : b.1 = n
    · simp [RemoveCallback, getBucket, alistLookup, h]
    · simpa [RemoveCallback, getBucket, alistLookup, h] using ih

theorem bucketCount_pos_of_mem {id : CallbackId} {l : Listener A} {b : Bucket A}
    (h : (id, l) ∈ b) : 1 ≤ bucketCount id b := by
  induction b with
  | nil => simp at h
  | cons e rest ih =>
    rcases List.mem_cons.mp h with h' | h'
    · simp [bucketCount, ← h']
    · have := ih h'
      simp only [bucketCount]
      omega

theorem exists_mem_of_bucketHas {id : CallbackId} {b : Bucket A}
    (h : bucketHas id b = true) : ∃ l, (id, l) ∈ b := by
  induction b with
  | nil => simp [bucketHas] at h
  | cons e rest ih =>
    by_cases h' : e.1 = id
    · exact ⟨e.2, by simp [← h']⟩
    · simp only [bucketHas, if_neg h'] at h
      obtain ⟨l, hl⟩ := ih h
      exact ⟨l, List.mem_cons_of_mem _ hl⟩

theorem bucketHas_of_mem {id : CallbackId} {l : Listener A} {b : Bucket A}
    (h : (id, l) ∈ b) : bucketHas id b = true := by
  induction b with
  | nil => simp at h
  | cons e rest ih =>
    rcases List.mem_cons.mp h with h' | h'
    · simp [bucketHas, ← h']
    · by_cases he : e.1 = id <;> simp [bucketHas, he, ih h']

theorem mem_eraseKey_ne {id id' : CallbackId} {l : Listener A} {b : Bucket A}
    (h : (id, l) ∈ b) (hne : id ≠ id') :
    (id, l) ∈ eraseKey id' b := by
  induction b with
  | nil => simp at h
  | cons e rest ih =>
    rcases List.mem_cons.mp h with h' | h'
    · have he : e.1 ≠ id' := by rw [← h']; exact hne
      simp [eraseKey, he, ← h', hne]
    · by_cases he : e.1 = id'
      · simpa [eraseKey, he] using ih h'
      · simp [eraseKey, he]
        exact Or.inr (by simpa using ih h')

theorem bucketCount_getBucket_le (id : CallbackId) (reg : Registry A) (n : EventName) :
    bucketCount id (getBucket reg n) ≤ regCount id reg := by
  induction reg with
  | nil => simp [getBucket, alistLookup, bucketCount, regCount]
  | cons b rest ih =>
    by_cases h : b.1 = n
    · simp only [getBucket, alistLookup, if_pos h, Option.getD_some, regCount]
      omega
    · have := ih
      simp only [getBucket, alistLookup, if_neg h, regCount] at this ⊢
      omega

theorem bucketCount_two_buckets_le {n n' : EventName} (hnn : n ≠ n') (id : CallbackId)
    (reg : Registry A) :
    bucketCount id (getBucket reg n) + bucketCount id (getBucket reg n') ≤ regCount id reg := by
  induction reg with
  | nil => simp [getBucket, alistLookup, bucketCount, regCount]
  | cons b rest ih =>
    by_cases h : b.1 = n
    · have h' : b.1 ≠ n' := by rw [h]; exact hnn
      have hle := bucketCount_getBucket_le id rest n'
      simp only [getBucket, alistLookup, if_pos h, if_neg h', Option.getD_some, regCount] at hle ⊢
      omega
    · by_cases h' : b.1 = n'
      · have hle := bucketCount_getBucket_le id rest n
        simp only [getBucket, alistLookup, if_neg h, if_pos h', Option.getD_some, regCount] at hle ⊢
        omega
      · have := ih
        simp only [getBucket, alistLookup, if_neg h, if_neg h', regCount] at this ⊢
        omega

/-! ### Helper lemmas: dispatch semantics -/

theorem runBucket_count_zero (id : CallbackId) (n : EventName) (snap : Bucket A) :
    ∀ reg : Registry A, regCount id reg = 0 →
      traceCount id (runBucket n reg snap).2 = 0 ∧ regCount id (runBucket n reg snap).1 = 0 := by
  induction snap with
  | nil =>
    intro reg h
    simpa [runBucket, traceCount] using h
  | cons e rest ih =>
    intro reg h
    obtain ⟨id₀, l⟩ := e
    by_cases hm : bucketHas id₀ (getBucket reg n) = true
    · have hne : id₀ ≠ id := by
        intro hh
        subst hh
        obtain ⟨l', hl'⟩ := exists_mem_of_bucketHas hm
        have h1 := bucketCount_pos_of_mem hl'
        have h2 := bucketCount_getBucket_le id₀ reg n
        omega
      cases l with
      | plain a =>
        have hrec := ih reg h
        simp [runBucket, hm, traceCount, hne, hrec.1, hrec.2]
      | once a =>
        have h0 : regCount id (RemoveCallback reg id₀) = 0 := by
          rw [regCount_RemoveCallback_ne (Ne.symm hne)]
          exact h
        have hrec := ih _ h0
        simp [runBucket, hm, traceCount, hne, hrec.1, hrec.2]
    · have hrec := ih reg h
      simp [runBucket, hm, hrec.1, hrec.2]

theorem runBucket_no_id (id : CallbackId) (a : A) (n n' : EventName) (snap : Bucket A) :
    ∀ reg : Registry A, bucketCount id snap = 0 → regCount id reg = 1 →
      (id, Listener.once a) ∈ getBucket reg n →
      traceCount id (runBucket n' reg snap).2 = 0 ∧
        regCount id (runBucket n' reg snap).1 = 1 ∧
        (id, Listener.once a) ∈ getBucket (runBucket n' reg snap).1 n := by
  induction snap with
  | nil =>
    intro reg _ hcnt hmem
    simp [runBucket, traceCount, hcnt, hmem]
  | cons e rest ih =>
    intro reg hsnap hcnt hmem
    obtain ⟨id₀, l⟩ := e
    have hne : id₀ ≠ id := by
      intro hh
      subst hh
      simp [bucketCount] at hsnap
    have hrest : bucketCount id rest = 0 := by
      simp [bucketCount, hne] at hsnap
      exact hsnap
    by_cases hm : bucketHas id₀ (getBucket reg n') = true
    · cases l with
      | plain a' =>
        have hrec := ih reg hrest hcnt hmem
        simp [runBucket, hm, traceCount, hne, hrec.1, hrec.2.1, hrec.2.2]
      | once a' =>
        have hcnt' : regCount id (RemoveCallback reg id₀) = 1 := by
          rw [regCount_RemoveCallback_ne (Ne.symm hne)]
          exact hcnt
        have hmem' : (id, Listener.once a) ∈ getBucket (RemoveCallback reg id₀) n := by
          rw [getBucket_RemoveCallback]
          exact mem_eraseKey_ne hmem (Ne.symm hne)
        have hrec := ih _ hrest hcnt' hmem'
        simp [runBucket, hm, traceCount, hne, hrec.1, hrec.2.1, hrec.2.2]
    · have hrec := ih reg hrest hcnt hmem
      simp [runBucket, hm, hrec.1, hrec.2.1, hrec.2.2]

theorem runBucket_once_fires (id : CallbackId) (a : A) (n : EventName) (snap : Bucket A) :
    ∀ reg : Registry A, bucketCount id snap = 1 → (id, Listener.once a) ∈ snap →
      regCount id reg = 1 → (id, Listener.once a) ∈ getBucket reg n →
      traceCount id (runBucket n reg snap).2 = 1 ∧ regCount id (runBucket n reg snap).1 = 0 := by
  induction snap with
  | nil =>
    intro reg _ hm _ _
    simp at hm
  | cons e rest ih =>
    intro reg hc hm hcnt hbmem
    obtain ⟨id₀, l⟩ := e
    by_cases hid : id₀ = id
    · subst hid
      have hrest : bucketCount id₀ rest = 0 := by
        simp [bucketCount] at hc
        exact hc
      have hl : l = Listener.once a := by
        rcases List.mem_cons.mp hm with h' | h'
        · exact (Prod.mk.injEq _ _ _ _ |>.mp h'.symm).2
        · have := bucketCount_pos_of_mem h'
          omega
      subst hl
      have hhas : bucketHas id₀ (getBucket reg n) = true := bucketHas_of_mem hbmem
      have h0 : regCount id₀ (RemoveCallback reg id₀) = 0 := regCount_RemoveCallback_self id₀ reg
      have hrec := runBucket_count_zero id₀ n rest _ h0
      simp [runBucket, hhas, traceCount, hrec.1, hrec.2]
    · have hrest : bucketCount id rest = 1 := by
        simpa [bucketCount, hid] using hc
      have hm' : (id, Listener.once a) ∈ rest := by
        rcases List.mem_cons.mp hm with h' | h'
        · exact absurd (Prod.mk.injEq _ _ _ _ |>.mp h'.symm).1 (fun hh => hid hh)
        · exact h'
      by_cases hmchk : bucketHas id₀ (getBucket reg n) = true
      · cases l with
        | plain a' =>
          have hrec := ih reg hrest hm' hcnt hbmem
          simp [runBucket, hmchk, traceCount, hid, hrec.1, hrec.2]
        | once a' =>
          have hcnt' : regCount id (RemoveCallback reg id₀) = 1 := by
            rw [regCount_RemoveCallback_ne (fun hh => hid hh.symm)]
            exact hcnt
          have hbmem' : (id, Listener.once a) ∈ getBucket (RemoveCallback reg id₀) n := by
            rw [getBucket_RemoveCallback]
            exact mem_eraseKey_ne hbmem (fun hh => hid hh.symm)
          have hrec := ih _ hrest hm' hcnt' hbmem'
          simp [runBucket, hmchk, traceCount, hid, hrec.1, hrec.2]
      · have hrec := ih reg hrest hm' hcnt hbmem
        simp [runBucket, hmchk, hrec.1, hrec.2]

theorem eraseKey_eq_self_of_count_zero {id : CallbackId} {b : Bucket A}
    (h : bucketCount id b = 0) : eraseKey id b = b := by
  induction b with
  | nil => rfl
  | cons e r ih =>
    have hne : e.1 ≠ id := by
      intro hh
      simp [bucketCount, hh] at h
    have hr : bucketCount id r = 0 := by
      simpa [bucketCount, hne] using h
    simp [eraseKey, hne, ih hr]

theorem trigger_count_zero (id : CallbackId) (reg : Registry A) (e : Event)
    (h : regCount id reg = 0) :
    traceCount id (triggerEventListeners reg e).2 = 0 ∧
      regCount id (triggerEventListeners reg e).1 = 0 :=
  runBucket_count_zero id e.name (getBucket reg e.name) reg h

theorem dispatchAll_count_zero (id : CallbackId) (ms : List Msg) :
    ∀ reg : Registry A, regCount id reg = 0 →
      traceCount id (dispatchAll reg ms).2 = 0 ∧ regCount id (dispatchAll reg ms).1 = 0 := by
  induction ms with
  | nil =>
    intro reg h
    simpa [dispatchAll, traceCount] using h
  | cons m rest ih =>
    intro reg h
    have h1 := trigger_count_zero id reg m.2 h
    have h2 := ih _ h1.2
    simp [dispatchAll, traceCount_append, h1.1, h2.1, h2.2]

theorem trigger_match (id : CallbackId) (a : A) (n : EventName) (reg : Registry A) (e : Event)
    (hn : e.name = n) (hcnt : regCount id reg = 1)
    (hmem : (id, Listener.once a) ∈ getBucket reg n) :
    traceCount id (triggerEventListeners reg e).2 = 1 ∧
      regCount id (triggerEventListeners reg e).1 = 0 := by
  have hble := bucketCount_getBucket_le id reg n
  have hpos := bucketCount_pos_of_mem hmem
  have hbc : bucketCount id (getBucket reg n) = 1 := by omega
  have := runBucket_once_fires id a n (getBucket reg n) reg hbc hmem hcnt hmem
  simpa [triggerEventListeners, hn] using this

theorem trigger_nonmatch (id : CallbackId) (a : A) (n : EventName) (reg : Registry A)
    (e : Event) (hn : e.name ≠ n) (hcnt : regCount id reg = 1)
    (hmem : (id, Listener.once a) ∈ getBucket reg n) :
    traceCount id (triggerEventListeners reg e).2 = 0 ∧
      regCount id (triggerEventListeners reg e).1 = 1 ∧
      (id, Listener.once a) ∈ getBucket (triggerEventListeners reg e).1 n := by
  have hble := bucketCount_two_buckets_le (fun hh => hn hh.symm) id reg
  have hpos := bucketCount_pos_of_mem hmem
  have hbc : bucketCount id (getBucket reg e.name) = 0 := by omega
  exact runBucket_no_id id a n e.name (getBucket reg e.name) reg hbc hcnt hmem

theorem dispatchAll_nonmatch (id : CallbackId) (a : A) (n : EventName) (ms : List Msg)
    (hms : ∀ x ∈ ms, x.2.name ≠ n) :
    ∀ reg : Registry A, regCount id reg = 1 → (id, Listener.once a) ∈ getBucket reg n →
      traceCount id (dispatchAll reg ms).2 = 0 ∧
        regCount id (dispatchAll reg ms).1 = 1 ∧
        (id, Listener.once a) ∈ getBucket (dispatchAll reg ms).1 n := by
  induction ms with
  | nil =>
    intro reg hcnt hmem
    simp [dispatchAll, traceCount, hcnt, hmem]
  | cons m rest ih =>
    intro reg hcnt hmem
    have h1 := trigger_nonmatch id a n reg m.2 (hms m (List.mem_cons_self m rest)) hcnt hmem
    have h2 := ih (fun x hx => hms x (List.mem_cons_of_mem m hx)) _ h1.2.1 h1.2.2
    simp [dispatchAll, traceCount_append, h1.1, h2.1, h2.2.1, h2.2.2]

theorem dispatchAll_append (reg : Registry A) (xs ys : List Msg) :
    dispatchAll reg (xs ++ ys) =
      ((dispatchAll (dispatchAll reg xs).1 ys).1,
        (dispatchAll reg xs).2 ++ (dispatchAll (dispatchAll reg xs).1 ys).2) := by
  induction xs generalizing reg with
  | nil => simp [dispatchAll]
  | cons x rest ih => simp [dispatchAll, ih, List.append_assoc]

/-! ### Helper lemmas: the receive loops -/

theorem startListenLoop_spec (unm : String → Option EventWrapper) (stream : List ReadResult) :
    startListenLoop unm stream =
      (oksBeforeErr (stream.map (receiveEvent unm)),
        (firstRecvError (stream.map (receiveEvent unm))).map storedOfRecvErr) := by
  induction stream with
  | nil => rfl
  | cons r rest ih =>
    cases h : receiveEvent unm r with
    | error e => simp [startListenLoop, h, oksBeforeErr, firstRecvError]
    | ok w => simp [startListenLoop, h, oksBeforeErr, firstRecvError, ih]

theorem receiveEvent_frame_ne_read (unm : String → Option EventWrapper)
    (t : FrameType) (msg : String) (e : ReadError) :
    receiveEvent unm (ReadResult.frame t msg) ≠ Except.error (RecvErr.read e) := by
  cases t with
  | binary => simp [receiveEvent]
  | text =>
    simp only [receiveEvent]
    cases unm msg with
    | none => simp
    | some w => by_cases h : w.event.name = "" <;> simp [h]

theorem ConnectionListen_outcome (unm : String → Option EventWrapper)
    (er : RecvErr → String) (reg : Registry A) (stream : List ReadResult) :
    (ConnectionListen unm er reg stream).2.2 = stream.findSome? listenTerminal := by
  induction stream generalizing reg with
  | nil => rfl
  | cons r rest ih =>
    cases r with
    | frame t msg =>
      cases h : receiveEvent unm (ReadResult.frame t msg) with
      | ok w => simp [ConnectionListen, h, List.findSome?, listenTerminal, ih]
      | error e =>
        cases e with
        | read e' => exact absurd h (receiveEvent_frame_ne_read unm t msg e')
        | invalidMessageType =>
          simp [ConnectionListen, h, List.findSome?, listenTerminal, ih]
        | decodeFailed =>
          simp [ConnectionListen, h, List.findSome?, listenTerminal, ih]
    | err e =>
      cases e with
      | cleanClose => simp [ConnectionListen, receiveEvent, List.findSome?, listenTerminal]
      | other s => simp [ConnectionListen, receiveEvent, List.findSome?, listenTerminal]

/-! ### Claim C2 -/

/-- Claim C2 counterexample: for `Socket.startListenLoop` (an explicitly
cited receive loop), a single non-text frame — a per-frame protocol framing
error — terminates the loop with `ErrInvalidMessageType` recorded as the
terminal error; the following perfectly valid text frame is never queued.
This refutes the claim that a framing error never terminates the receive
loop and that only a transport error or connection close does. -/
theorem startListenLoop_framing_terminates_cex :
    startListenLoop (fun s => if s = "ok" then some ⟨"srv", ⟨"move", ""⟩⟩ else none)
        [ReadResult.frame FrameType.binary ("b"), ReadResult.frame FrameType.text ("ok")] =
      ([], some (StoredErr.recv RecvErr.invalidMessageType)) ∧
      (startListenLoop (fun s => if s = "ok" then some ⟨"srv", ⟨"move", ""⟩⟩ else none)
        [ReadResult.frame FrameType.binary ("b"), ReadResult.frame FrameType.text ("ok")]).2 ≠
        none :=
  ⟨by decide, by decide⟩

/-- Claim C2 (amended): in `Connection.Listen` a per-frame framing error
(non-text frame, undecodable payload, empty name) never terminates the
loop — the offending frame is skipped (after being reported through the
internal error-event path) and only a read error terminates the loop: the
outcome is decided purely by the first read error in the stream, a clean
close returning `nil` and any other transport error being returned.  In
`Socket.startListenLoop`, by contrast, the first receive error of any kind
— framing errors included — terminates the loop and is recorded (clean
closes as `ErrClosed`, everything else as-is). -/
theorem framing_skipped_in_Listen_fatal_in_startListenLoop
    (unm : String → Option EventWrapper) (er : RecvErr → String) (reg : Registry A)
    (stream : List ReadResult) :
    (ConnectionListen unm er reg stream).2.2 = stream.findSome? listenTerminal ∧
      (startListenLoop unm stream).2 =
        (firstRecvError (stream.map (receiveEvent unm))).map storedOfRecvErr :=
  ⟨ConnectionListen_outcome unm er reg stream, by rw [startListenLoop_spec]⟩

/-! ### Claim C4 -/

theorem RunEventLoop_eq_dispatchAll (reg : Registry A) (q : List EventWrapper)
    (stored : StoredErr) :
    RunEventLoop reg q stored =
      ((dispatchAll reg (q.map (fun w => (w.origin, w.event)))).1,
        (dispatchAll reg (q.map (fun w => (w.origin, w.event)))).2,
        if stored = StoredErr.closed then none else some stored) := by
  induction q generalizing reg with
  | nil => simp [RunEventLoop, dispatchAll]
  | cons w rest ih => simp [RunEventLoop, dispatchAll, ih]

theorem storedOfRecvErr_eq_closed_iff (e : RecvErr) :
    storedOfRecvErr e = StoredErr.closed ↔ e = RecvErr.read ReadError.cleanClose := by
  cases e with
  | read e' => cases e' <;> simp [storedOfRecvErr]
  | invalidMessageType => simp [storedOfRecvErr]
  | decodeFailed => simp [storedOfRecvErr]

/-- Claim C4: when the receive loop has terminated (recording `stored` and
closing the queue after delivering `q`), `RunEventLoop` dispatches every
queued message in order through the registered listeners and then returns
`nil` if and only if the receive loop terminated because of a clean remote
close (normal closure / going-away / no-status, recorded as `ErrClosed`);
otherwise it returns exactly the error the receive loop recorded. -/
theorem RunEventLoop_correct (unm : String → Option EventWrapper) (reg : Registry A)
    (stream : List ReadResult) (q : List EventWrapper) (stored : StoredErr)
    (h : startListenLoop unm stream = (q, some stored)) :
    ((RunEventLoop reg q stored).1, (RunEventLoop reg q stored).2.1) =
        dispatchAll reg (q.map (fun w => (w.origin, w.event))) ∧
      ((RunEventLoop reg q stored).2.2 = none ↔
        firstRecvError (stream.map (receiveEvent unm)) =
          some (RecvErr.read ReadError.cleanClose)) ∧
      ((RunEventLoop reg q stored).2.2 = none ↔ stored = StoredErr.closed) ∧
      (stored ≠ StoredErr.closed → (RunEventLoop reg q stored).2.2 = some stored) := by
  have hspec := startListenLoop_spec unm stream
  rw [h] at hspec
  have hterm : (firstRecvError (stream.map (receiveEvent unm))).map storedOfRecvErr =
      some stored := by
    have := congrArg Prod.snd hspec
    simpa using this.symm
  have hclosed : stored = StoredErr.closed ↔
      firstRecvError (stream.map (receiveEvent unm)) =
        some (RecvErr.read ReadError.cleanClose) := by
    cases he : firstRecvError (stream.map (receiveEvent unm)) with
    | none => rw [he] at hterm; simp at hterm
    | some e =>
      rw [he] at hterm
      simp only [Option.map] at hterm
      rw [Option.some.injEq] at hterm
      rw [← hterm]
      constructor
      · intro hh
        exact congrArg some ((storedOfRecvErr_eq_closed_iff e).mp hh)
      · intro hh
        exact (storedOfRecvErr_eq_closed_iff e).mpr (by simpa using hh)
  rw [RunEventLoop_eq_dispatchAll]
  by_cases hs : stored = StoredErr.closed
  · simp [hs, hclosed.mp hs]
  · have hne : firstRecvError (stream.map (receiveEvent unm)) ≠
        some (RecvErr.read ReadError.cleanClose) := fun hh => hs (hclosed.mpr hh)
    simp [hs, hne]

/-- Claim C4 witness: a concrete stream delivering one message and then a
clean remote close; the listen loop records `ErrClosed` and `RunEventLoop`
returns `nil`. -/
theorem RunEventLoop_correct_witness :
    startListenLoop (fun s => if s = "ok" then some ⟨"srv", ⟨"move", ""⟩⟩ else none)
        [ReadResult.frame FrameType.text ("ok"), ReadResult.err ReadError.cleanClose] =
      ([⟨"srv", ⟨"move", ""⟩⟩], some StoredErr.closed) ∧
      ((RunEventLoop ([] : Registry Nat) [⟨"srv", ⟨"move", ""⟩⟩] StoredErr.closed).2.2 = none ↔
        StoredErr.closed = StoredErr.closed) :=
  ⟨by decide,
    (RunEventLoop_correct (fun s => if s = "ok" then some ⟨"srv", ⟨"move", ""⟩⟩ else none)
      ([] : Registry Nat)
      [ReadResult.frame FrameType.text ("ok"), ReadResult.err ReadError.cleanClose]
      [⟨"srv", ⟨"move", ""⟩⟩] StoredErr.closed (by decide)).2.2.1⟩

/-! ### Helper lemmas: the correlator -/

theorem waitLoop_ok_prefix (unm : String → Option EventWrapper) (decR : String → String)
    (expected : EventName) (pre : List ReadResult) :
    ∀ (ws : List EventWrapper) (reg : Registry A),
      pre.map (receiveEvent unm) = ws.map Except.ok →
      (∀ w ∈ ws, w.event.name ≠ expected ∧ w.event.name ≠ ErrorEvent) →
      ∀ rest : List ReadResult,
        waitLoop unm decR reg expected (pre ++ rest) =
          ((waitLoop unm decR (dispatchAll reg (ws.map (fun w => (w.origin, w.event)))).1
              expected rest).1,
            (dispatchAll reg (ws.map (fun w => (w.origin, w.event)))).2 ++
              (waitLoop unm decR (dispatchAll reg (ws.map (fun w => (w.origin, w.event)))).1
                expected rest).2.1,
            (waitLoop unm decR (dispatchAll reg (ws.map (fun w => (w.origin, w.event)))).1
              expected rest).2.2) := by
  induction pre with
  | nil =>
    intro ws reg hdec _ rest
    have hws : ws = [] := by
      cases ws with
      | nil => rfl
      | cons w ws' => simp at hdec
    subst hws
    simp [dispatchAll]
  | cons p pre' ih =>
    intro ws reg hdec hnd rest
    cases ws with
    | nil => simp at hdec
    | cons w ws' =>
      simp only [List.map_cons, List.cons.injEq] at hdec
      have hp : receiveEvent unm p = Except.ok w := hdec.1
      have hrest : pre'.map (receiveEvent unm) = ws'.map Except.ok := hdec.2
      have hw := hnd w (List.mem_cons_self w ws')
      have ih' := ih ws' (triggerEventListeners reg w.event).1 hrest
        (fun x hx => hnd x (List.mem_cons_of_mem _ hx)) rest
      simp only [List.cons_append, waitLoop, hp]
      simp [hw.1, hw.2, dispatchAll, ih', List.append_assoc]

/-! ### Claim C1 -/

/-- Claim C1: for every sequence of incoming messages in which the first
"decisive" message (first one named either the expected response name or
the reserved error name) is `wlast`, the correlator
`sendEventAndWaitForResponse` (1) sends exactly the request, (2) drives
`triggerEventListeners` for every message it read — the unrelated prefix
and the decisive message alike — exactly as a sequential dispatch of those
messages, (3) returns `wlast` when its name is the expected response, and
(4) when `wlast` is instead the reserved error event, fails with exactly
the reason decoded from that error message's data. -/
theorem sendEventAndWaitForResponse_correct (unm : String → Option EventWrapper)
    (decR : String → String) (reg : Registry A) (ev : EventName) (dat : String)
    (expected : EventName) (pre : List ReadResult) (p : ReadResult)
    (rest : List ReadResult) (front : List EventWrapper) (wlast : EventWrapper)
    (hdec : pre.map (receiveEvent unm) = front.map Except.ok)
    (hfront : ∀ w ∈ front, w.event.name ≠ expected ∧ w.event.name ≠ ErrorEvent)
    (hp : receiveEvent unm p = Except.ok wlast)
    (hlast : wlast.event.name = expected ∨ wlast.event.name = ErrorEvent) :
    (sendEventAndWaitForResponse unm decR reg ev dat expected (pre ++ p :: rest)).sent =
        [⟨ev, dat⟩] ∧
      ((sendEventAndWaitForResponse unm decR reg ev dat expected (pre ++ p :: rest)).reg,
        (sendEventAndWaitForResponse unm decR reg ev dat expected (pre ++ p :: rest)).trace) =
        dispatchAll reg ((front ++ [wlast]).map (fun w => (w.origin, w.event))) ∧
      (wlast.event.name = expected →
        (sendEventAndWaitForResponse unm decR reg ev dat expected (pre ++ p :: rest)).outcome =
          CorrOutcome.ok wlast) ∧
      (wlast.event.name ≠ expected →
        (sendEventAndWaitForResponse unm decR reg ev dat expected (pre ++ p :: rest)).outcome =
          CorrOutcome.serverError (decR wlast.event.data)) := by
  have hpre := waitLoop_ok_prefix unm decR expected pre front reg hdec hfront (p :: rest)
  simp only [sendEventAndWaitForResponse, hpre]
  rw [List.map_append, dispatchAll_append]
  by_cases hexp : wlast.event.name = expected
  · simp [waitLoop, hp, hexp, dispatchAll]
  · have herr : wlast.event.name = ErrorEvent := hlast.resolve_left hexp
    have hee : ¬ (ErrorEvent = expected) := fun hh => hexp (herr.trans hh)
    simp [waitLoop, hp, hexp, herr, hee, dispatchAll]

/-- Claim C1 witness: the server interleaves an unrelated `game_info`
message before the awaited `joined_game` response; the correlator returns
the response. -/
theorem sendEventAndWaitForResponse_correct_witness :
    (sendEventAndWaitForResponse
        (fun s => if s = "a" then some ⟨"p2", ⟨"game_info", "roster"⟩⟩
          else if s = "b" then some ⟨"srv", ⟨"joined_game", "sec"⟩⟩ else none)
        id ([] : Registry Nat) JoinEvent ("g1;alice") JoinedEvent
        [ReadResult.frame FrameType.text ("a"), ReadResult.frame FrameType.text ("b")]).outcome =
      CorrOutcome.ok ⟨"srv", ⟨"joined_game", "sec"⟩⟩ := by
  have h := sendEventAndWaitForResponse_correct
    (fun s => if s = "a" then some ⟨"p2", ⟨"game_info", "roster"⟩⟩
      else if s = "b" then some ⟨"srv", ⟨"joined_game", "sec"⟩⟩ else none)
    id ([] : Registry Nat) JoinEvent ("g1;alice") JoinedEvent
    [ReadResult.frame FrameType.text ("a")] (ReadResult.frame FrameType.text ("b")) []
    [⟨"p2", ⟨"game_info", "roster"⟩⟩] ⟨"srv", ⟨"joined_game", "sec"⟩⟩
    (by rfl) (by decide) (by rfl) (Or.inl (by decide))
  exact h.2.2.1 (by decide)

/-! ### Claim C3 -/

/-- Claim C3 counterexample: while the correlator waits for `joined_game`,
a text frame whose payload does not decode is not skipped — the call
returns `ErrDecodeFailed` as its result, even though the very next frame
carries the expected response (which is never returned).  This refutes the
claim that a decode failure is skipped and never returned as the result of
the correlator call. -/
theorem corr_decode_failure_not_skipped_cex :
    (sendEventAndWaitForResponse
        (fun s => if s = "good" then some ⟨"srv", ⟨"joined_game", ""⟩⟩ else none)
        id ([] : Registry Nat) JoinEvent ("d") JoinedEvent
        [ReadResult.frame FrameType.text ("bad"),
          ReadResult.frame FrameType.text ("good")]).outcome =
      CorrOutcome.recvError RecvErr.decodeFailed ∧
      (sendEventAndWaitForResponse
        (fun s => if s = "good" then some ⟨"srv", ⟨"joined_game", ""⟩⟩ else none)
        id ([] : Registry Nat) JoinEvent ("d") JoinedEvent
        [ReadResult.frame FrameType.text ("bad"),
          ReadResult.frame FrameType.text ("good")]).outcome ≠
        CorrOutcome.ok ⟨"srv", ⟨"joined_game", ""⟩⟩ :=
  ⟨by decide, by decide⟩

/-- Claim C3 (amended): in `Socket.sendEventAndWaitForResponse` the first
receive error while waiting — a transport error propagated as-is, a
non-text frame (`ErrInvalidMessageType`) or a decode failure
(`ErrDecodeFailed`) alike — is returned to the caller as the result of the
call, not skipped; the successfully decoded messages read before it have
all been dispatched to the registered listeners, and only a received
message named with the reserved error name produces the server-reason
failure instead.  (It is the older `Connection.Create`/`Connection.Join`
correlators that skip framing errors and continue waiting.) -/
theorem corr_first_recv_error_propagates (unm : String → Option EventWrapper)
    (decR : String → String) (reg : Registry A) (ev : EventName) (dat : String)
    (expected : EventName) (pre : List ReadResult) (p : ReadResult)
    (rest : List ReadResult) (ws : List EventWrapper) (e : RecvErr)
    (hdec : pre.map (receiveEvent unm) = ws.map Except.ok)
    (hnd : ∀ w ∈ ws, w.event.name ≠ expected ∧ w.event.name ≠ ErrorEvent)
    (hp : receiveEvent unm p = Except.error e) :
    (sendEventAndWaitForResponse unm decR reg ev dat expected (pre ++ p :: rest)).outcome =
        CorrOutcome.recvError e ∧
      ((sendEventAndWaitForResponse unm decR reg ev dat expected (pre ++ p :: rest)).reg,
        (sendEventAndWaitForResponse unm decR reg ev dat expected (pre ++ p :: rest)).trace) =
        dispatchAll reg (ws.map (fun w => (w.origin, w.event))) ∧
      (sendEventAndWaitForResponse unm decR reg ev dat expected (pre ++ p :: rest)).sent =
        [⟨ev, dat⟩] := by
  have hpre := waitLoop_ok_prefix unm decR expected pre ws reg hdec hnd (p :: rest)
  simp only [sendEventAndWaitForResponse, hpre]
  simp [waitLoop, hp]

/-- Claim C3 (amended) witness: one good unrelated message, then a binary
frame; the correlator fails with `ErrInvalidMessageType`. -/
theorem corr_first_recv_error_propagates_witness :
    (sendEventAndWaitForResponse
        (fun s => if s = "a" then some ⟨"p2", ⟨"game_info", ""⟩⟩ else none)
        id ([] : Registry Nat) JoinEvent ("d") JoinedEvent
        [ReadResult.frame FrameType.text ("a"),
          ReadResult.frame FrameType.binary ("x")]).outcome =
      CorrOutcome.recvError RecvErr.invalidMessageType := by
  have h := corr_first_recv_error_propagates
    (fun s => if s = "a" then some ⟨"p2", ⟨"game_info", ""⟩⟩ else none)
    id ([] : Registry Nat) JoinEvent ("d") JoinedEvent
    [ReadResult.frame FrameType.text ("a")] (ReadResult.frame FrameType.binary ("x")) []
    [⟨"p2", ⟨"game_info", ""⟩⟩] RecvErr.invalidMessageType
    (by rfl) (by decide) (by rfl)
  exact h.1

/-! ### Claim C5 -/

/-- Claim C5: a handler registered with the one-shot form (`Once`) is invoked
on the first dispatched message of the matching name and never invoked again
by any later dispatch, even when several matching messages are dispatched
back to back; its removal happens within its own invocation, so no later
message can reach it.  Formally: take any registry in which a `Once`-wrapped
handler with id `id` is registered under name `n` (its handle appearing
nowhere else), any prefix of dispatched messages none of which carries name
`n`, a first matching message `m`, and any suffix `ms₂`.  The handler fires
zero times during the prefix, exactly once during the dispatch of `m`, and
zero times during the entire suffix; the full run's trace is the
concatenation of the three parts. -/
theorem Once_fires_exactly_once (id : CallbackId) (a : A) (n : EventName)
    (reg : Registry A) (ms₁ : List Msg) (m : Msg) (ms₂ : List Msg)
    (hcnt : regCount id reg = 1)
    (hmem : (id, Listener.once a) ∈ getBucket reg n)
    (h₁ : ∀ x ∈ ms₁, x.2.name ≠ n)
    (hm : m.2.name = n) :
    traceCount id (dispatchAll reg ms₁).2 = 0 ∧
      traceCount id (triggerEventListeners (dispatchAll reg ms₁).1 m.2).2 = 1 ∧
      traceCount id (dispatchAll (triggerEventListeners (dispatchAll reg ms₁).1 m.2).1 ms₂).2 = 0 ∧
      traceCount id (dispatchAll reg (ms₁ ++ m :: ms₂)).2 = 1 := by
  have h1 := dispatchAll_nonmatch id a n ms₁ h₁ reg hcnt hmem
  have h2 := trigger_match id a n (dispatchAll reg ms₁).1 m.2 hm h1.2.1 h1.2.2
  have h3 := dispatchAll_count_zero id ms₂ _ h2.2
  refine ⟨h1.1, h2.1, h3.1, ?_⟩
  rw [dispatchAll_append]
  have hsplit : dispatchAll (dispatchAll reg ms₁).1 (m :: ms₂) =
      ((dispatchAll (triggerEventListeners (dispatchAll reg ms₁).1 m.2).1 ms₂).1,
        (triggerEventListeners (dispatchAll reg ms₁).1 m.2).2 ++
          (dispatchAll (triggerEventListeners (dispatchAll reg ms₁).1 m.2).1 ms₂).2) := by
    simp [dispatchAll]
  simp [hsplit, traceCount_append, h1.1, h2.1, h3.1]

/-- Claim C5 witness: a concrete registry with one `Once` handler under
`"move"`, an unrelated message, then two back-to-back `"move"` messages; the
handler fires exactly once over the whole run. -/
theorem Once_fires_exactly_once_witness :
    traceCount 7 (dispatchAll
      ([(("move" : EventName), [((7 : CallbackId), Listener.once (0 : Nat))])])
      ([(("s" : String), (⟨"other", ""⟩ : Event))] ++
        (("s" : String), (⟨"move", ""⟩ : Event)) :: [(("s" : String), (⟨"move", ""⟩ : Event))])).2 = 1 :=
  (Once_fires_exactly_once 7 0 ("move") _ _ _ _ (by decide) (by decide)
    (by decide) (by decide)).2.2.2

/-! ### Claim C6 -/

/-- Claim C6: `RemoveCallback` deletes the handle from every name bucket, so
a subsequent dispatch of any message sequence never invokes the removed
handler; removing an unknown or already-removed handle is a no-op (never an
error — the operation is total), and removal is idempotent. -/
theorem RemoveCallback_correct (reg : Registry A) (id : CallbackId) (ms : List Msg) :
    regCount id (RemoveCallback reg id) = 0 ∧
      traceCount id (dispatchAll (RemoveCallback reg id) ms).2 = 0 ∧
      RemoveCallback (RemoveCallback reg id) id = RemoveCallback reg id ∧
      (regCount id reg = 0 → RemoveCallback reg id = reg) := by
  refine ⟨regCount_RemoveCallback_self id reg, ?_, ?_, ?_⟩
  · exact (dispatchAll_count_zero id ms _ (regCount_RemoveCallback_self id reg)).1
  · simp only [RemoveCallback, List.map_map]
    apply List.map_congr_left
    intro b _
    simp [eraseKey_idem]
  · intro h
    simp only [RemoveCallback]
    have main : ∀ reg' : Registry A, regCount id reg' = 0 →
        reg'.map (fun b => (b.1, eraseKey id b.2)) = reg' := by
      intro reg'
      induction reg' with
      | nil => intro _; rfl
      | cons b rest ih =>
        intro h'
        have hb : bucketCount id b.2 = 0 := by
          simp [regCount] at h'
          omega
        have hrest : regCount id rest = 0 := by
          simp [regCount] at h'
          omega
        simp [eraseKey_eq_self_of_count_zero hb, ih hrest]
    exact main reg h

/-- Claim C6 witness: a concrete two-bucket registry; removal empties every
bucket of handle 3, dispatch after removal never fires it, double removal
equals single removal, and removing the unknown handle 9 is a no-op. -/
theorem RemoveCallback_correct_witness :
    regCount 9 ([(("a" : EventName), [((3 : CallbackId), Listener.plain (1 : Nat))])]) = 0 ∧
      RemoveCallback ([(("a" : EventName), [((3 : CallbackId), Listener.plain (1 : Nat))])]) 9 =
        ([(("a" : EventName), [((3 : CallbackId), Listener.plain (1 : Nat))])]) :=
  ⟨by decide,
    (RemoveCallback_correct ([(("a" : EventName), [((3 : CallbackId), Listener.plain (1 : Nat))])])
      9 []).2.2.2 (by decide)⟩

/-! ### Claim C7 -/

/-- Claim C7 counterexample: on a cache miss `ResolveUsername` performs no
collaborator lookup and caches nothing.  With an empty cache and a
collaborator that would successfully return the name `alice` for `p1`, the
spec-modelled `usernameOf` yields `alice` (caching it), while the
implemented `ResolveUsername` yields the empty string — its result differs
from the behaviour the claim describes at this input, refuting the claim
that the absent-id path performs a lookup and caches the result. -/
theorem ResolveUsername_no_lookup_cex :
    ResolveUsername [] ("p1") = "" ∧
      (usernameOfSpec [] (fun _ => some ("alice")) ("p1")).1 = "alice" ∧
      ResolveUsername [] ("p1") ≠ (usernameOfSpec [] (fun _ => some ("alice")) ("p1")).1 :=
  ⟨by decide, by decide, by decide⟩

/-- Claim C7 (amended): `ResolveUsername` is a pure cache read: it returns
the cached display name when the participant id is present, and the empty
string (the Go zero value of the map read) when it is absent; it performs
no collaborator lookup and never modifies the cache — population and
invalidation happen only through `cacheUser` / `uncacheUser`, driven by the
built-in lifecycle handlers (`fetchUsername` exists in the REST helper file
but is never called). -/
theorem ResolveUsername_cache_only (cache : List (String × String)) (p u : String) :
    (alistLookup p cache = some u → ResolveUsername cache p = u) ∧
      (alistLookup p cache = none → ResolveUsername cache p = "") ∧
      ResolveUsername (cacheUser cache p u) p = u ∧
      ResolveUsername (uncacheUser cache p) p = "" := by
  refine ⟨?_, ?_, ?_, ?_⟩
  · intro h
    simp [ResolveUsername, h]
  · intro h
    simp [ResolveUsername, h]
  · simp [ResolveUsername, cacheUser, alistLookup]
  · simp [ResolveUsername, uncacheUser, alistLookup_eraseKey_self]

/-- Claim C7 (amended) witness: a cached id resolves to its cached name; an
uncached id resolves to the empty string. -/
theorem ResolveUsername_cache_only_witness :
    alistLookup ("p2") [(("p2" : String), ("bob" : String))] = some ("bob") ∧
      ResolveUsername [(("p2" : String), ("bob" : String))] ("p2") = "bob" :=
  ⟨by decide,
    (ResolveUsername_cache_only [(("p2" : String), ("bob" : String))] ("p2") ("bob")).1
      (by decide)⟩

/-! ### Claim C8 -/

theorem Connect_err_state (unm : String → Option EventWrapper) (decR : String → String)
    (decC : String → Option String) (st : SockState A) (stream : List ReadResult)
    (gid pid psec : String) :
    (Connect unm decR decC st stream gid pid psec).st.name = st.name ∧
      ((Connect unm decR decC st stream gid pid psec).err ≠ none →
        (Connect unm decR decC st stream gid pid psec).st.store = st.store ∧
          (Connect unm decR decC st stream gid pid psec).st.session = st.session) := by
  simp only [Connect]
  split
  · split
    · simp
    · simp
  · simp
  · simp
  · simp

/-- Claim C8: when `RestoreSession` succeeds in loading persisted
credentials (their key is present in the store, and the socket's game name
is non-empty, which `NewSocket` guarantees by rejecting servers reporting
an empty name) but the reconnect attempt with those credentials fails, the
persisted credentials are removed from the session store and the connect
error is returned unchanged; afterwards the key resolves to nothing, so a
later restore attempt for the same user fails at the load step instead of
reusing the stale data. -/
theorem RestoreSession_removes_stale (unm : String → Option EventWrapper)
    (decR : String → String) (decC : String → Option String) (st : SockState A)
    (stream : List ReadResult) (username : String) (creds : Creds) (e : OpError)
    (hname : st.name ≠ "")
    (hload : alistLookup (st.name, username) st.store = some creds)
    (hconn : (Connect unm decR decC st stream creds.gameId creds.playerId
        creds.playerSecret).err = some e) :
    (RestoreSession unm decR decC st stream username).err = some e ∧
      alistLookup (st.name, username)
          (RestoreSession unm decR decC st stream username).st.store = none ∧
      loadSession (RestoreSession unm decR decC st stream username).st.store
          st.name username = none ∧
      (∀ stream' : List ReadResult,
        (RestoreSession unm decR decC (RestoreSession unm decR decC st stream username).st
            stream' username).err = some OpError.loadFailed) := by
  have hCs := Connect_err_state unm decR decC st stream creds.gameId creds.playerId
    creds.playerSecret
  have hCst := hCs.2 (by rw [hconn]; exact Option.some_ne_none e)
  have hrun : RestoreSession unm decR decC st stream username =
      ⟨{ (Connect unm decR decC st stream creds.gameId creds.playerId
            creds.playerSecret).st with
          store := eraseKey (st.name, username)
            (Connect unm decR decC st stream creds.gameId creds.playerId
              creds.playerSecret).st.store },
        (Connect unm decR decC st stream creds.gameId creds.playerId
          creds.playerSecret).sent,
        (Connect unm decR decC st stream creds.gameId creds.playerId
          creds.playerSecret).trace,
        some e⟩ := by
    simp only [RestoreSession, loadSession, hload, Option.map_some']
    rw [hconn]
    simp [Session.remove, hname]
  refine ⟨by rw [hrun], ?_, ?_, ?_⟩
  · rw [hrun]
    simp [hCst.1, alistLookup_eraseKey_self]
  · rw [hrun]
    simp only [loadSession, hCst.1]
    simp [alistLookup_eraseKey_self]
  · intro stream'
    rw [hrun]
    simp only [RestoreSession, loadSession]
    have hn : ({ (Connect unm decR decC st stream creds.gameId creds.playerId
          creds.playerSecret).st with
        store := eraseKey (st.name, username)
          (Connect unm decR decC st stream creds.gameId creds.playerId
            creds.playerSecret).st.store } : SockState A).name = st.name := hCs.1
    rw [hn, hCst.1]
    simp [alistLookup_eraseKey_self]

/-- Claim C8 witness: a store holding credentials for `("game", "alice")`;
the reconnect attempt runs out of modelled input and fails with `noInput`
(where the Go call would still be blocked); the persisted entry is
gone afterwards and a second restore fails to load. -/
theorem RestoreSession_removes_stale_witness :
    (RestoreSession (fun _ => none) id (fun _ => none)
        (⟨"game", [], [], ⟨"", "", "", "", ""⟩, false,
          [((("game" : String), ("alice" : String)), (⟨"g1", "p1", "s1"⟩ : Creds))], true⟩ :
          SockState Nat)
        [] ("alice")).err = some (OpError.noInput) ∧
      alistLookup (("game" : String), ("alice" : String))
        (RestoreSession (fun _ => none) id (fun _ => none)
          (⟨"game", [], [], ⟨"", "", "", "", ""⟩, false,
            [((("game" : String), ("alice" : String)), (⟨"g1", "p1", "s1"⟩ : Creds))], true⟩ :
            SockState Nat)
          [] ("alice")).st.store = none := by
  have h := RestoreSession_removes_stale (fun _ => none) id (fun _ => none)
    (⟨"game", [], [], ⟨"", "", "", "", ""⟩, false,
      [((("game" : String), ("alice" : String)), (⟨"g1", "p1", "s1"⟩ : Creds))], true⟩ :
      SockState Nat)
    [] ("alice") (⟨"g1", "p1", "s1"⟩ : Creds) OpError.noInput
    (by decide) (by decide) (by decide)
  exact ⟨h.1, h.2.1⟩

/-! ### Claim C9 -/

/-- Claim C9: `Leave` deletes every non-standard callback bucket while
keeping the standard-event ones, clears the entire username cache, removes
the persisted session from the store, and does not close the underlying
transport (it only writes one `leave_game` message).  Calling `Leave` twice
in a row cannot panic (the operation is total) and the second call observes
an already-empty cache and the already-filtered registry, changing neither
it nor the store, and again leaves the transport open. -/
theorem Leave_correct (isStd : EventName → Bool) (st : SockState A) :
    (Leave isStd st).1.listeners = st.listeners.filter (fun b => isStd b.1) ∧
      (Leave isStd st).1.usernameCache = [] ∧
      (Leave isStd st).1.store = st.session.remove st.store ∧
      (Leave isStd st).1.transportOpen = st.transportOpen ∧
      (Leave isStd st).2 = [⟨LeaveEvent, "\x7b\x7d"⟩] ∧
      (Leave isStd (Leave isStd st).1).1.listeners = (Leave isStd st).1.listeners ∧
      (Leave isStd (Leave isStd st).1).1.usernameCache = [] ∧
      (Leave isStd (Leave isStd st).1).1.store = (Leave isStd st).1.store ∧
      (Leave isStd (Leave isStd st).1).1.transportOpen = st.transportOpen ∧
      (Leave isStd (Leave isStd st).1).2 = [⟨LeaveEvent, "\x7b\x7d"⟩] := by
  refine ⟨rfl, rfl, rfl, rfl, rfl, ?_, rfl, ?_, rfl, rfl⟩
  · simp [Leave, List.filter_filter]
  · simp only [Leave, Session.remove]
    by_cases h : st.session.name = ""
    · simp [h]
    · simp [h, eraseKey_idem]

/-! ### Claim C10 -/

/-- Claim C10: precondition guards of `Join` — when a game has already been
joined (the in-memory session is non-empty) and likewise when the username
is empty, `Join` returns the corresponding error immediately: nothing is
sent to the server, no listener is invoked, and the entire socket state
(session, listener registry, username cache, store, flags) is unchanged.
The already-joined check is performed before the username check. -/
theorem Join_guard (unm : String → Option EventWrapper) (decR : String → String)
    (decJ : String → Option String) (st : SockState A) (stream : List ReadResult)
    (gameId username : String)
    (h : st.session.name ≠ "" ∨ username = "") :
    (Join unm decR decJ st stream gameId username).st = st ∧
      (Join unm decR decJ st stream gameId username).sent = [] ∧
      (Join unm decR decJ st stream gameId username).trace = [] ∧
      (Join unm decR decJ st stream gameId username).err =
        some (if st.session.name ≠ "" then OpError.alreadyJoined
          else OpError.emptyUsername) := by
  by_cases h1 : st.session.name = ""
  · have h2 : username = "" := h.resolve_left (fun hh => hh h1)
    simp [Join, h1, h2]
  · simp [Join, h1]

/-- Claim C10 witness: a socket whose session is already populated; `Join`
for a fresh game id and non-empty username fails with the already-joined
error and the state is unchanged. -/
theorem Join_guard_witness :
    (Join (fun _ => none) id (fun _ => none)
        (⟨"game", [], [], ⟨"game", "alice", "g", "p", "s"⟩, false, [], true⟩ : SockState Nat)
        [] ("g2") ("bob")).st =
        (⟨"game", [], [], ⟨"game", "alice", "g", "p", "s"⟩, false, [], true⟩ : SockState Nat) ∧
      (Join (fun _ => none) id (fun _ => none)
        (⟨"game", [], [], ⟨"game", "alice", "g", "p", "s"⟩, false, [], true⟩ : SockState Nat)
        [] ("g2") ("bob")).err = some OpError.alreadyJoined := by
  have h := Join_guard (fun _ => none) id (fun _ => none)
    (⟨"game", [], [], ⟨"game", "alice", "g", "p", "s"⟩, false, [], true⟩ : SockState Nat)
    [] ("g2") ("bob") (Or.inl (by decide))
  refine ⟨h.1, ?_⟩
  rw [h.2.2.2]
  decide

end CG
